import Mathlib

/-!
# colorex: colour-model conversions

A shallow embedding of the colour conversion functions of `main.go`
(`rgbToHex`, `rgbToHSL`, `rgbToCMYK`, `rgbToHSV`, `getColorInfo`).

* A `uint8` channel is a natural number `n` with `n ≤ 255`.
* `float64` arithmetic is read as exact arithmetic over `ℚ`.
* Each numeric conversion is given twice: once with the total division of `ℚ`
  and once with a checked division `fdiv` that fails on a zero divisor.  The
  checked versions are used to show that no division by zero is ever executed.
-/

namespace Colorex

/-! ## Numeric conversions -/

/-- The conversion `float64(x) / 255.0` of a channel value. -/
def norm255 (x : Nat) : ℚ := (x : ℚ) / 255

/-- Source: `rgbToHSL` (main.go, lines 149-182). -/
def rgbToHSL (r g b : Nat) : ℚ × ℚ × ℚ :=
  let rr := norm255 r
  let gg := norm255 g
  let bb := norm255 b
  let max := Max.max rr (Max.max gg bb)
  let min := Min.min rr (Min.min gg bb)
  let delta := max - min
  let l := (max + min) / 2
  if delta = 0 then
    (0, 0, l)
  else
    let s₀ := delta / (2 - max - min)
    let s := if l < 1 / 2 then delta / (max + min) else s₀
    let h :=
      if rr = max then
        let h₀ := (gg - bb) / delta
        if gg < bb then h₀ + 6 else h₀
      else if gg = max then
        2 + (bb - rr) / delta
      else
        4 + (rr - gg) / delta
    (h * 60, s * 100, l * 100)

/-- Source: `rgbToCMYK` (main.go, lines 184-203).  The named results `c`, `m`,
`y` start at zero and are only assigned under the `invK != 0` guard. -/
def rgbToCMYK (r g b : Nat) : ℚ × ℚ × ℚ × ℚ :=
  if r = 0 ∧ g = 0 ∧ b = 0 then
    (0, 0, 0, 100)
  else
    let rr := norm255 r
    let gg := norm255 g
    let bb := norm255 b
    let k := 1 - Max.max rr (Max.max gg bb)
    let invK := 1 - k
    let cmy : ℚ × ℚ × ℚ :=
      if invK ≠ 0 then
        ((1 - rr - k) / invK * 100, (1 - gg - k) / invK * 100, (1 - bb - k) / invK * 100)
      else
        (0, 0, 0)
    (cmy.1, cmy.2.1, cmy.2.2, k * 100)

/-- Source: `rgbToHSV` (main.go, lines 205-239). -/
def rgbToHSV (r g b : Nat) : ℚ × ℚ × ℚ :=
  let rr := norm255 r
  let gg := norm255 g
  let bb := norm255 b
  let max := Max.max rr (Max.max gg bb)
  let min := Min.min rr (Min.min gg bb)
  let delta := max - min
  let v := max * 100
  if max = 0 then
    (0, 0, v)
  else
    let s := (delta / max) * 100
    if delta = 0 then
      (0, s, v)
    else
      let h :=
        if rr = max then
          let h₀ := (gg - bb) / delta
          if gg < bb then h₀ + 6 else h₀
        else if gg = max then
          2 + (bb - rr) / delta
        else
          4 + (rr - gg) / delta
      (h * 60, s, v)

/-! ## The same conversions with checked division -/

/-- Division that fails on a zero divisor. -/
def fdiv (a b : ℚ) : Option ℚ := if b = 0 then none else some (a / b)

/-- Source: `rgbToHSL` (main.go, lines 149-182), every `/` with a computed
divisor replaced by `fdiv`. -/
def rgbToHSLChecked (r g b : Nat) : Option (ℚ × ℚ × ℚ) :=
  let rr := norm255 r
  let gg := norm255 g
  let bb := norm255 b
  let max := Max.max rr (Max.max gg bb)
  let min := Min.min rr (Min.min gg bb)
  let delta := max - min
  let l := (max + min) / 2
  if delta = 0 then
    some (0, 0, l)
  else do
    let s₀ ← fdiv delta (2 - max - min)
    let s ← if l < 1 / 2 then fdiv delta (max + min) else pure s₀
    let h ←
      if rr = max then do
        let h₀ ← fdiv (gg - bb) delta
        pure (if gg < bb then h₀ + 6 else h₀)
      else if gg = max then do
        let q ← fdiv (bb - rr) delta
        pure (2 + q)
      else do
        let q ← fdiv (rr - gg) delta
        pure (4 + q)
    pure (h * 60, s * 100, l * 100)

/-- Source: `rgbToCMYK` (main.go, lines 184-203), every `/` with a computed
divisor replaced by `fdiv`. -/
def rgbToCMYKChecked (r g b : Nat) : Option (ℚ × ℚ × ℚ × ℚ) :=
  if r = 0 ∧ g = 0 ∧ b = 0 then
    some (0, 0, 0, 100)
  else do
    let rr := norm255 r
    let gg := norm255 g
    let bb := norm255 b
    let k := 1 - Max.max rr (Max.max gg bb)
    let invK := 1 - k
    let cmy : ℚ × ℚ × ℚ ←
      if invK ≠ 0 then do
        let c ← fdiv (1 - rr - k) invK
        let m ← fdiv (1 - gg - k) invK
        let y ← fdiv (1 - bb - k) invK
        pure (c * 100, m * 100, y * 100)
      else
        pure (0, 0, 0)
    pure (cmy.1, cmy.2.1, cmy.2.2, k * 100)

/-- Source: `rgbToHSV` (main.go, lines 205-239), every `/` with a computed
divisor replaced by `fdiv`. -/
def rgbToHSVChecked (r g b : Nat) : Option (ℚ × ℚ × ℚ) :=
  let rr := norm255 r
  let gg := norm255 g
  let bb := norm255 b
  let max := Max.max rr (Max.max gg bb)
  let min := Min.min rr (Min.min gg bb)
  let delta := max - min
  let v := max * 100
  if max = 0 then
    some (0, 0, v)
  else do
    let q ← fdiv delta max
    let s := q * 100
    if delta = 0 then
      pure (0, s, v)
    else do
      let h ←
        if rr = max then do
          let h₀ ← fdiv (gg - bb) delta
          pure (if gg < bb then h₀ + 6 else h₀)
        else if gg = max then do
          let q ← fdiv (bb - rr) delta
          pure (2 + q)
        else do
          let q ← fdiv (rr - gg) delta
          pure (4 + q)
      pure (h * 60, s, v)

/-- The value of `invK` in `rgbToCMYK` (main.go, lines 193-194). -/
def cmykInvK (r g b : Nat) : ℚ :=
  let rr := norm255 r
  let gg := norm255 g
  let bb := norm255 b
  let k := 1 - Max.max rr (Max.max gg bb)
  1 - k

/-- The largest channel value, computed on the `uint8` inputs. -/
def maxChan (r g b : Nat) : Nat := Max.max r (Max.max g b)

/-- The smallest channel value, computed on the `uint8` inputs. -/
def minChan (r g b : Nat) : Nat := Min.min r (Min.min g b)

/-- The value of `max` in `rgbToHSL` and `rgbToHSV`: the largest normalized channel. -/
def normMax (r g b : Nat) : ℚ := Max.max (norm255 r) (Max.max (norm255 g) (norm255 b))

/-- The value of `min` in `rgbToHSL` and `rgbToHSV`: the smallest normalized channel. -/
def normMin (r g b : Nat) : ℚ := Min.min (norm255 r) (Min.min (norm255 g) (norm255 b))

/-! ## Text output -/

/-- The verb `%d` of `fmt.Sprintf` on an unsigned value: its decimal digits. -/
def fmtD (n : Nat) : String := String.mk (Nat.toDigits 10 n)

/-- The verb `%02X` of `fmt.Sprintf` on an unsigned value: its hexadecimal digits
in upper case, padded on the left with `0` to a width of two. -/
def fmt02X (n : Nat) : String :=
  let ds := (Nat.toDigits 16 n).map Char.toUpper
  String.mk (List.replicate (2 - ds.length) '0' ++ ds)

/-- Source: `rgbToHex` (main.go, lines 145-147). -/
def rgbToHex (r g b : Nat) : String :=
  "#" ++ fmt02X r ++ fmt02X g ++ fmt02X b

/-- Source: `ColorInfo` (main.go, lines 65-72). -/
structure ColorInfo where
  RGB : String
  RGBA : String
  HEX : String
  HSL : String
  CMYK : String
  HSV : String

/-- Source: `getColorInfo` (main.go, lines 241-254).  The verb `%.1f` on a
`float64` is the parameter `fmtF`. -/
def getColorInfo (fmtF : ℚ → String) (r g b : Nat) : ColorInfo :=
  let hsl := rgbToHSL r g b
  let cmyk := rgbToCMYK r g b
  let hsv := rgbToHSV r g b
  { RGB := fmtD r ++ ", " ++ fmtD g ++ ", " ++ fmtD b
    RGBA := fmtD r ++ ", " ++ fmtD g ++ ", " ++ fmtD b ++ ", 1"
    HEX := rgbToHex r g b
    HSL := fmtF hsl.1 ++ ", " ++ fmtF hsl.2.1 ++ "%, " ++ fmtF hsl.2.2 ++ "%"
    CMYK := fmtF cmyk.1 ++ "%, " ++ fmtF cmyk.2.1 ++ "%, " ++ fmtF cmyk.2.2.1 ++ "%, " ++
      fmtF cmyk.2.2.2 ++ "%"
    HSV := fmtF hsv.1 ++ ", " ++ fmtF hsv.2.1 ++ "%, " ++ fmtF hsv.2.2 ++ "%" }

/-! ## Reading the text output back -/

/-- Membership in the character class `[0-9A-F]`. -/
def isUpperHexDigit (c : Char) : Bool :=
  ('0' ≤ c && c ≤ '9') || ('A' ≤ c && c ≤ 'F')

/-- The value of one hexadecimal digit. -/
def hexDigitVal (c : Char) : Option Nat :=
  if '0' ≤ c ∧ c ≤ '9' then some (c.toNat - '0'.toNat)
  else if 'A' ≤ c ∧ c ≤ 'F' then some (c.toNat - 'A'.toNat + 10)
  else if 'a' ≤ c ∧ c ≤ 'f' then some (c.toNat - 'a'.toNat + 10)
  else none

/-- The value of a two-digit hexadecimal numeral. -/
def parseHexPair : List Char → Option Nat
  | [hi, lo] => do
    let h ← hexDigitVal hi
    let l ← hexDigitVal lo
    pure (16 * h + l)
  | _ => none

/-- Reads `#RRGGBB` back: the three two-digit hexadecimal pairs after `#`, in order. -/
def parseHex (s : String) : Option (Nat × Nat × Nat) :=
  match s.data with
  | [c, r₁, r₂, g₁, g₂, b₁, b₂] =>
    if c = '#' then do
      let r ← parseHexPair [r₁, r₂]
      let g ← parseHexPair [g₁, g₂]
      let b ← parseHexPair [b₁, b₂]
      pure (r, g, b)
    else none
  | _ => none

/-- The value of one decimal digit. -/
def decDigitVal (c : Char) : Option Nat :=
  if '0' ≤ c ∧ c ≤ '9' then some (c.toNat - '0'.toNat) else none

/-- The value of a non-empty decimal numeral. -/
def parseDec (s : String) : Option Nat :=
  match s.data with
  | [] => none
  | cs => cs.foldl (fun acc c => do
      let a ← acc
      let d ← decDigitVal c
      pure (10 * a + d)) (some 0)

/-! ## Auxiliary lemmas -/

theorem norm255_nonneg (x : Nat) : 0 ≤ norm255 x := by
  unfold norm255; positivity

theorem norm255_le_one {x : Nat} (hx : x ≤ 255) : norm255 x ≤ 1 := by
  unfold norm255
  rw [div_le_one (by norm_num)]
  exact_mod_cast hx

theorem quot_bounds {x d : ℚ} (hd : 0 < d) (h1 : -d ≤ x) (h2 : x ≤ d) :
    -1 ≤ x / d ∧ x / d ≤ 1 := by
  constructor
  · rw [le_div_iff₀ hd]; linarith
  · rw [div_le_iff₀ hd]; linarith

theorem quot_neg {x d : ℚ} (hd : 0 < d) (hx : x < 0) : x / d < 0 :=
  div_neg_of_neg_of_pos hx hd

theorem quot_nonneg {x d : ℚ} (hd : 0 < d) (hx : 0 ≤ x) : 0 ≤ x / d :=
  div_nonneg hx hd.le

/-- The hue expression shared by `rgbToHSL` and `rgbToHSV`, before scaling by 60. -/
theorem hue_range {rr gg bb M m : ℚ} (hrM : rr ≤ M) (hgM : gg ≤ M) (hbM : bb ≤ M)
    (hmr : m ≤ rr) (hmg : m ≤ gg) (hmb : m ≤ bb) (hd : M - m ≠ 0) :
    0 ≤ (if rr = M then (if gg < bb then (gg - bb) / (M - m) + 6 else (gg - bb) / (M - m))
          else if gg = M then 2 + (bb - rr) / (M - m) else 4 + (rr - gg) / (M - m)) * 60 ∧
    (if rr = M then (if gg < bb then (gg - bb) / (M - m) + 6 else (gg - bb) / (M - m))
          else if gg = M then 2 + (bb - rr) / (M - m) else 4 + (rr - gg) / (M - m)) * 60 < 360 := by
  have hpos : 0 < M - m := lt_of_le_of_ne (by linarith) (Ne.symm hd)
  have h1 := quot_bounds hpos (show -(M - m) ≤ gg - bb by linarith) (by linarith)
  have h2 := quot_bounds hpos (show -(M - m) ≤ bb - rr by linarith) (by linarith)
  have h3 := quot_bounds hpos (show -(M - m) ≤ rr - gg by linarith) (by linarith)
  split_ifs with ha hb hc
  · have := quot_neg hpos (show gg - bb < 0 by linarith)
    constructor <;> linarith [h1.1, h1.2]
  · have := quot_nonneg hpos (show 0 ≤ gg - bb by linarith)
    constructor <;> linarith [h1.1, h1.2]
  · constructor <;> linarith [h2.1, h2.2]
  · constructor <;> linarith [h3.1, h3.2]


theorem rgbToHSL_range (r g b : Nat) (hr : r ≤ 255) (hg : g ≤ 255) (hb : b ≤ 255) :
    (0 ≤ (rgbToHSL r g b).1 ∧ (rgbToHSL r g b).1 < 360) ∧
    (0 ≤ (rgbToHSL r g b).2.1 ∧ (rgbToHSL r g b).2.1 ≤ 100) ∧
    (0 ≤ (rgbToHSL r g b).2.2 ∧ (rgbToHSL r g b).2.2 ≤ 100) := by
  have hr0 := norm255_nonneg r
  have hg0 := norm255_nonneg g
  have hb0 := norm255_nonneg b
  have hr1 := norm255_le_one hr
  have hg1 := norm255_le_one hg
  have hb1 := norm255_le_one hb
  simp only [rgbToHSL]
  generalize norm255 r = rr at *
  generalize norm255 g = gg at *
  generalize norm255 b = bb at *
  have hrM : rr ≤ max rr (max gg bb) := le_max_left _ _
  have hgM : gg ≤ max rr (max gg bb) := le_trans (le_max_left _ _) (le_max_right _ _)
  have hbM : bb ≤ max rr (max gg bb) := le_trans (le_max_right _ _) (le_max_right _ _)
  have hmr : min rr (min gg bb) ≤ rr := min_le_left _ _
  have hmg : min rr (min gg bb) ≤ gg := le_trans (min_le_right _ _) (min_le_left _ _)
  have hmb : min rr (min gg bb) ≤ bb := le_trans (min_le_right _ _) (min_le_right _ _)
  have hM1 : max rr (max gg bb) ≤ 1 := max_le hr1 (max_le hg1 hb1)
  have hm0 : 0 ≤ min rr (min gg bb) := le_min hr0 (le_min hg0 hb0)
  generalize max rr (max gg bb) = M at *
  generalize min rr (min gg bb) = m at *
  by_cases hd : M - m = 0
  · rw [if_pos hd]
    refine ⟨⟨le_refl _, by norm_num⟩, ⟨le_refl _, by norm_num⟩, ?_, ?_⟩ <;> simp only <;> linarith
  · rw [if_neg hd]
    have hpos : 0 < M - m := lt_of_le_of_ne (by linarith) (Ne.symm hd)
    refine ⟨hue_range hrM hgM hbM hmr hmg hmb hd, ?_, ?_⟩
    · simp only
      split_ifs with hl
      · have hp : 0 < M + m := by linarith
        have h1 : (M - m) / (M + m) ≤ 1 := (div_le_one hp).2 (by linarith)
        have h0 : 0 ≤ (M - m) / (M + m) := div_nonneg hpos.le hp.le
        constructor <;> linarith
      · have hp : 0 < 2 - M - m := by linarith
        have h1 : (M - m) / (2 - M - m) ≤ 1 := (div_le_one hp).2 (by linarith)
        have h0 : 0 ≤ (M - m) / (2 - M - m) := div_nonneg hpos.le hp.le
        constructor <;> linarith
    · simp only
      constructor <;> linarith


theorem rgbToHSV_range (r g b : Nat) (hr : r ≤ 255) (hg : g ≤ 255) (hb : b ≤ 255) :
    (0 ≤ (rgbToHSV r g b).1 ∧ (rgbToHSV r g b).1 < 360) ∧
    (0 ≤ (rgbToHSV r g b).2.1 ∧ (rgbToHSV r g b).2.1 ≤ 100) ∧
    (0 ≤ (rgbToHSV r g b).2.2 ∧ (rgbToHSV r g b).2.2 ≤ 100) := by
  have hr0 := norm255_nonneg r
  have hg0 := norm255_nonneg g
  have hb0 := norm255_nonneg b
  have hr1 := norm255_le_one hr
  have hg1 := norm255_le_one hg
  have hb1 := norm255_le_one hb
  simp only [rgbToHSV]
  generalize norm255 r = rr at *
  generalize norm255 g = gg at *
  generalize norm255 b = bb at *
  have hrM : rr ≤ max rr (max gg bb) := le_max_left _ _
  have hgM : gg ≤ max rr (max gg bb) := le_trans (le_max_left _ _) (le_max_right _ _)
  have hbM : bb ≤ max rr (max gg bb) := le_trans (le_max_right _ _) (le_max_right _ _)
  have hmr : min rr (min gg bb) ≤ rr := min_le_left _ _
  have hmg : min rr (min gg bb) ≤ gg := le_trans (min_le_right _ _) (min_le_left _ _)
  have hmb : min rr (min gg bb) ≤ bb := le_trans (min_le_right _ _) (min_le_right _ _)
  have hM1 : max rr (max gg bb) ≤ 1 := max_le hr1 (max_le hg1 hb1)
  have hm0 : 0 ≤ min rr (min gg bb) := le_min hr0 (le_min hg0 hb0)
  generalize max rr (max gg bb) = M at *
  generalize min rr (min gg bb) = m at *
  have hM0 : 0 ≤ M := by linarith
  by_cases hz : M = 0
  · rw [if_pos hz]
    refine ⟨⟨le_refl _, by norm_num⟩, ⟨le_refl _, by norm_num⟩, ?_, ?_⟩ <;> simp only <;> linarith
  · rw [if_neg hz]
    have hMpos : 0 < M := lt_of_le_of_ne hM0 (Ne.symm hz)
    have hs1 : (M - m) / M ≤ 1 := (div_le_one hMpos).2 (by linarith)
    have hs0 : 0 ≤ (M - m) / M := div_nonneg (by linarith) hMpos.le
    by_cases hd : M - m = 0
    · rw [if_pos hd]
      refine ⟨⟨le_refl _, by norm_num⟩, ⟨?_, ?_⟩, ?_, ?_⟩ <;> simp only <;> linarith
    · rw [if_neg hd]
      refine ⟨hue_range hrM hgM hbM hmr hmg hmb hd, ⟨?_, ?_⟩, ?_, ?_⟩ <;> simp only <;> linarith

/-- The hue of `rgbToHSV` is the hue of `rgbToHSL`. -/
theorem hsv_hue_eq_hsl_hue (r g b : Nat) : (rgbToHSV r g b).1 = (rgbToHSL r g b).1 := by
  have hr0 := norm255_nonneg r
  have hg0 := norm255_nonneg g
  have hb0 := norm255_nonneg b
  simp only [rgbToHSV, rgbToHSL]
  generalize norm255 r = rr at *
  generalize norm255 g = gg at *
  generalize norm255 b = bb at *
  have hrM : rr ≤ max rr (max gg bb) := le_max_left _ _
  have hmr : min rr (min gg bb) ≤ rr := min_le_left _ _
  have hm0 : 0 ≤ min rr (min gg bb) := le_min hr0 (le_min hg0 hb0)
  generalize max rr (max gg bb) = M at *
  generalize min rr (min gg bb) = m at *
  by_cases hz : M = 0
  · have hd : M - m = 0 := by linarith
    rw [if_pos hz, if_pos hd]
  · rw [if_neg hz]
    by_cases hd : M - m = 0
    · rw [if_pos hd, if_pos hd]
    · rw [if_neg hd, if_neg hd]

theorem max3_self (x : ℚ) : max x (max x x) = x := by simp

theorem min3_self (x : ℚ) : min x (min x x) = x := by simp

theorem rgbToHSL_gray (x : Nat) : rgbToHSL x x x = (0, 0, norm255 x) := by
  simp only [rgbToHSL, max3_self, min3_self, sub_self, if_true]
  congr 2
  ring

theorem rgbToHSV_gray (x : Nat) : rgbToHSV x x x = (0, 0, norm255 x * 100) := by
  simp only [rgbToHSV, max3_self, min3_self, sub_self, if_true, zero_div, zero_mul]
  split_ifs <;> rfl


theorem max_norm255 (r g b : Nat) :
    max (norm255 r) (max (norm255 g) (norm255 b)) = (maxChan r g b : ℚ) / 255 := by
  unfold norm255 maxChan
  rw [max_div_div_right (by norm_num), max_div_div_right (by norm_num)]
  push_cast
  rfl

theorem min_norm255 (r g b : Nat) :
    min (norm255 r) (min (norm255 g) (norm255 b)) = (minChan r g b : ℚ) / 255 := by
  unfold norm255 minChan
  rw [min_div_div_right (by norm_num), min_div_div_right (by norm_num)]
  push_cast
  rfl

theorem maxChan_pos {r g b : Nat} (h : ¬(r = 0 ∧ g = 0 ∧ b = 0)) : 0 < maxChan r g b := by
  unfold maxChan
  by_contra hc
  have h0 : max r (max g b) = 0 := by omega
  have h1 : r ≤ max r (max g b) := le_max_left _ _
  have h2 : g ≤ max r (max g b) := le_trans (le_max_left _ _) (le_max_right _ _)
  have h3 : b ≤ max r (max g b) := le_trans (le_max_right _ _) (le_max_right _ _)
  exact h ⟨by omega, by omega, by omega⟩

theorem rgbToCMYK_formula (r g b : Nat) (h : ¬(r = 0 ∧ g = 0 ∧ b = 0)) :
    rgbToCMYK r g b =
      (100 * ((maxChan r g b : ℚ) - r) / maxChan r g b,
       100 * ((maxChan r g b : ℚ) - g) / maxChan r g b,
       100 * ((maxChan r g b : ℚ) - b) / maxChan r g b,
       100 * (255 - (maxChan r g b : ℚ)) / 255) := by
  have hM : (0 : ℚ) < maxChan r g b := by exact_mod_cast maxChan_pos h
  have hne : (maxChan r g b : ℚ) ≠ 0 := ne_of_gt hM
  simp only [rgbToCMYK, if_neg h, max_norm255]
  have hk : (1 : ℚ) - (1 - (maxChan r g b : ℚ) / 255) ≠ 0 := by
    have : (1 : ℚ) - (1 - (maxChan r g b : ℚ) / 255) = (maxChan r g b : ℚ) / 255 := by ring
    rw [this]; positivity
  rw [if_pos hk]
  simp only [norm255]
  refine Prod.ext ?_ (Prod.ext ?_ (Prod.ext ?_ ?_)) <;> simp only <;> field_simp <;> ring


theorem le_maxChan (r g b : Nat) :
    r ≤ maxChan r g b ∧ g ≤ maxChan r g b ∧ b ≤ maxChan r g b :=
  ⟨le_max_left _ _, le_trans (le_max_left _ _) (le_max_right _ _),
    le_trans (le_max_right _ _) (le_max_right _ _)⟩

theorem maxChan_le {r g b : Nat} (hr : r ≤ 255) (hg : g ≤ 255) (hb : b ≤ 255) :
    maxChan r g b ≤ 255 :=
  max_le hr (max_le hg hb)

theorem pct_range {x M : ℚ} (hM : 0 < M) (h0 : 0 ≤ x) (h1 : x ≤ M) :
    0 ≤ 100 * x / M ∧ 100 * x / M ≤ 100 := by
  constructor
  · positivity
  · rw [div_le_iff₀ hM]; linarith

theorem rgbToCMYK_range (r g b : Nat) (hr : r ≤ 255) (hg : g ≤ 255) (hb : b ≤ 255) :
    (0 ≤ (rgbToCMYK r g b).1 ∧ (rgbToCMYK r g b).1 ≤ 100) ∧
    (0 ≤ (rgbToCMYK r g b).2.1 ∧ (rgbToCMYK r g b).2.1 ≤ 100) ∧
    (0 ≤ (rgbToCMYK r g b).2.2.1 ∧ (rgbToCMYK r g b).2.2.1 ≤ 100) ∧
    (0 ≤ (rgbToCMYK r g b).2.2.2 ∧ (rgbToCMYK r g b).2.2.2 ≤ 100) := by
  by_cases h : r = 0 ∧ g = 0 ∧ b = 0
  · simp only [rgbToCMYK, if_pos h]
    norm_num
  · rw [rgbToCMYK_formula r g b h]
    have hM : (0 : ℚ) < maxChan r g b := by exact_mod_cast maxChan_pos h
    obtain ⟨h1, h2, h3⟩ := le_maxChan r g b
    have h1q : (r : ℚ) ≤ maxChan r g b := by exact_mod_cast h1
    have h2q : (g : ℚ) ≤ maxChan r g b := by exact_mod_cast h2
    have h3q : (b : ℚ) ≤ maxChan r g b := by exact_mod_cast h3
    have h4q : (maxChan r g b : ℚ) ≤ 255 := by exact_mod_cast maxChan_le hr hg hb
    have hr0 : (0 : ℚ) ≤ r := Nat.cast_nonneg r
    have hg0 : (0 : ℚ) ≤ g := Nat.cast_nonneg g
    have hb0 : (0 : ℚ) ≤ b := Nat.cast_nonneg b
    exact ⟨pct_range hM (by linarith) (by linarith), pct_range hM (by linarith) (by linarith),
      pct_range hM (by linarith) (by linarith),
      pct_range (by norm_num) (by linarith) (by linarith)⟩

theorem rgbToCMYK_inverse (r g b : Nat) :
    255 * (1 - (rgbToCMYK r g b).1 / 100) * (1 - (rgbToCMYK r g b).2.2.2 / 100) = r ∧
    255 * (1 - (rgbToCMYK r g b).2.1 / 100) * (1 - (rgbToCMYK r g b).2.2.2 / 100) = g ∧
    255 * (1 - (rgbToCMYK r g b).2.2.1 / 100) * (1 - (rgbToCMYK r g b).2.2.2 / 100) = b := by
  by_cases h : r = 0 ∧ g = 0 ∧ b = 0
  · obtain ⟨rfl, rfl, rfl⟩ := h
    simp [rgbToCMYK]
  · rw [rgbToCMYK_formula r g b h]
    have hM : (0 : ℚ) < maxChan r g b := by exact_mod_cast maxChan_pos h
    have hne : (maxChan r g b : ℚ) ≠ 0 := ne_of_gt hM
    refine ⟨?_, ?_, ?_⟩ <;> simp only <;> field_simp <;> ring

theorem delta_ne_zero {r g b : Nat} (h : maxChan r g b ≠ minChan r g b) :
    max (norm255 r) (max (norm255 g) (norm255 b)) -
      min (norm255 r) (min (norm255 g) (norm255 b)) ≠ 0 := by
  rw [max_norm255, min_norm255]
  intro hc
  have h2 : (maxChan r g b : ℚ) = minChan r g b := by
    field_simp at hc
    linarith
  exact h (by exact_mod_cast h2)

theorem rgbToHSL_saturation (r g b : Nat) (h : maxChan r g b ≠ minChan r g b) :
    let M := max (norm255 r) (max (norm255 g) (norm255 b))
    let m := min (norm255 r) (min (norm255 g) (norm255 b))
    let delta := M - m
    let l := (M + m) / 2
    (rgbToHSL r g b).2.1 =
        (if l < 1 / 2 then 100 * delta / (M + m) else 100 * delta / (2 - M - m)) ∧
    (rgbToHSL r g b).2.1 = 100 * delta / (1 - |2 * l - 1|) := by
  intro M m delta l
  have hd : M - m ≠ 0 := delta_ne_zero h
  have e1 : (rgbToHSL r g b).2.1 =
      (if l < 1 / 2 then 100 * delta / (M + m) else 100 * delta / (2 - M - m)) := by
    simp only [rgbToHSL]
    rw [if_neg hd]
    simp only
    split_ifs with hl
    · simp only [delta, M, m]; ring
    · simp only [delta, M, m]; ring
  refine ⟨e1, ?_⟩
  rw [e1]
  split_ifs with hl
  · have : |2 * l - 1| = -(2 * l - 1) := abs_of_neg (by linarith)
    rw [this]
    congr 1
    simp only [l]; ring
  · have : |2 * l - 1| = 2 * l - 1 := abs_of_nonneg (by linarith)
    rw [this]
    congr 1
    simp only [l]; ring


theorem fdiv_of_ne (a : ℚ) {b : ℚ} (hb : b ≠ 0) : fdiv a b = some (a / b) := by
  simp [fdiv, hb]

theorem rgbToHSLChecked_eq (r g b : Nat) (hr : r ≤ 255) (hg : g ≤ 255) (hb : b ≤ 255) :
    rgbToHSLChecked r g b = some (rgbToHSL r g b) := by
  have hr0 := norm255_nonneg r
  have hg0 := norm255_nonneg g
  have hb0 := norm255_nonneg b
  have hr1 := norm255_le_one hr
  have hg1 := norm255_le_one hg
  have hb1 := norm255_le_one hb
  simp only [rgbToHSLChecked, rgbToHSL]
  generalize norm255 r = rr at *
  generalize norm255 g = gg at *
  generalize norm255 b = bb at *
  have hrM : rr ≤ max rr (max gg bb) := le_max_left _ _
  have hmr : min rr (min gg bb) ≤ rr := min_le_left _ _
  have hM1 : max rr (max gg bb) ≤ 1 := max_le hr1 (max_le hg1 hb1)
  have hm0 : 0 ≤ min rr (min gg bb) := le_min hr0 (le_min hg0 hb0)
  generalize max rr (max gg bb) = M at *
  generalize min rr (min gg bb) = m at *
  by_cases hd : M - m = 0
  · rw [if_pos hd, if_pos hd]
  · rw [if_neg hd, if_neg hd]
    have hpos : 0 < M - m := lt_of_le_of_ne (by linarith) (Ne.symm hd)
    have h2 : 2 - M - m ≠ 0 := ne_of_gt (by linarith)
    have h1 : M + m ≠ 0 := ne_of_gt (by linarith)
    simp only [fdiv_of_ne _ hd, fdiv_of_ne _ h1, fdiv_of_ne _ h2, Option.bind_eq_bind,
      Option.some_bind, Option.pure_def]
    split_ifs <;> rfl

theorem cmykInvK_ne_zero (r g b : Nat) (h : ¬(r = 0 ∧ g = 0 ∧ b = 0)) : cmykInvK r g b ≠ 0 := by
  have hM : (0 : ℚ) < maxChan r g b := by exact_mod_cast maxChan_pos h
  simp only [cmykInvK, max_norm255]
  have : (1 : ℚ) - (1 - (maxChan r g b : ℚ) / 255) = (maxChan r g b : ℚ) / 255 := by ring
  rw [this]; positivity

theorem rgbToCMYKChecked_eq (r g b : Nat) :
    rgbToCMYKChecked r g b = some (rgbToCMYK r g b) := by
  by_cases h : r = 0 ∧ g = 0 ∧ b = 0
  · simp only [rgbToCMYKChecked, rgbToCMYK, if_pos h]
  · have hk := cmykInvK_ne_zero r g b h
    simp only [cmykInvK] at hk
    simp only [rgbToCMYKChecked, rgbToCMYK, if_neg h, if_pos hk, fdiv_of_ne _ hk,
      Option.bind_eq_bind, Option.some_bind, Option.pure_def]

theorem rgbToHSVChecked_eq (r g b : Nat) :
    rgbToHSVChecked r g b = some (rgbToHSV r g b) := by
  simp only [rgbToHSVChecked, rgbToHSV]
  generalize norm255 r = rr at *
  generalize norm255 g = gg at *
  generalize norm255 b = bb at *
  generalize max rr (max gg bb) = M at *
  generalize min rr (min gg bb) = m at *
  by_cases hz : M = 0
  · rw [if_pos hz, if_pos hz]
  · rw [if_neg hz, if_neg hz]
    by_cases hd : M - m = 0
    · simp only [fdiv_of_ne _ hz, Option.bind_eq_bind, Option.some_bind, Option.pure_def,
        if_pos hd]
    · simp only [fdiv_of_ne _ hz, fdiv_of_ne _ hd, Option.bind_eq_bind, Option.some_bind,
        Option.pure_def, if_neg hd]
      split_ifs <;> rfl

set_option maxRecDepth 100000 in
theorem fmt02X_byte : ∀ n < 256, (fmt02X n).data.length = 2 ∧
    (fmt02X n).data.all isUpperHexDigit = true ∧ parseHexPair (fmt02X n).data = some n := by
  decide

set_option maxRecDepth 100000 in
theorem fmtD_byte : ∀ n < 256, parseDec (fmtD n) = some n := by
  decide

theorem fmt02X_shape {n : Nat} (hn : n ≤ 255) :
    ∃ hi lo : Char, (fmt02X n).data = [hi, lo] ∧ isUpperHexDigit hi = true ∧
      isUpperHexDigit lo = true ∧ parseHexPair [hi, lo] = some n := by
  obtain ⟨h1, h2, h3⟩ := fmt02X_byte n (by omega)
  obtain ⟨hi, lo, e⟩ := List.length_eq_two.1 h1
  rw [e] at h2 h3
  simp only [List.all_cons, List.all_nil, Bool.and_true, Bool.and_eq_true] at h2
  exact ⟨hi, lo, e, h2.1, h2.2, h3⟩

theorem rgbToHex_data {r g b : Nat} {r₁ r₂ g₁ g₂ b₁ b₂ : Char}
    (er : (fmt02X r).data = [r₁, r₂]) (eg : (fmt02X g).data = [g₁, g₂])
    (eb : (fmt02X b).data = [b₁, b₂]) :
    (rgbToHex r g b).data = ['#', r₁, r₂, g₁, g₂, b₁, b₂] := by
  simp only [rgbToHex, String.data_append, er, eg, eb]
  rfl

theorem norm255_full : norm255 255 = 1 := by
  norm_num [norm255]

theorem norm255_zero : norm255 0 = 0 := by
  norm_num [norm255]

theorem rgbToHSL_lightness_chromatic (r g b : Nat) (h : maxChan r g b ≠ minChan r g b) :
    (rgbToHSL r g b).2.2 = 100 * ((maxChan r g b : ℚ) + minChan r g b) / 510 := by
  have hd := delta_ne_zero h
  simp only [rgbToHSL]
  rw [if_neg hd]
  simp only [max_norm255, min_norm255]
  ring

theorem rgbToHSL_lightness_gray (x : Nat) :
    (rgbToHSL x x x).2.2 = ((maxChan x x x : ℚ) + minChan x x x) / 510 := by
  rw [rgbToHSL_gray]
  simp only [norm255, maxChan, minChan, max_self, min_self]
  ring

/-! ## The claims -/

/-- Claim C1, on the code: for white the function `rgbToHSL` returns the
lightness `1`, the unscaled fraction, and not the percentage `100`; the early
return for `delta == 0` hands back `l` without the factor `100` that the
general return applies. -/
theorem rgbToHSL_white_unscaled :
    rgbToHSL 255 255 255 = (0, 0, 1) ∧ rgbToHSL 255 255 255 ≠ (0, 0, 100) ∧
    (rgbToHSL 255 255 255).2.2 ≠ 100 * ((maxChan 255 255 255 : ℚ) + minChan 255 255 255) / 510 := by
  have e : rgbToHSL 255 255 255 = (0, 0, 1) := by rw [rgbToHSL_gray, norm255_full]
  refine ⟨e, ?_, ?_⟩
  · rw [e]; simp
  · rw [e]; norm_num [maxChan, minChan]

/-- Claim C2: for channel values in `[0,255]`, `rgbToHex` is seven characters
long, is `#` followed by six characters of `[0-9A-F]`, and its three two-digit
hexadecimal pairs read back as `(r, g, b)`. -/
theorem rgbToHex_roundtrip (r g b : Nat) (hr : r ≤ 255) (hg : g ≤ 255) (hb : b ≤ 255) :
    (rgbToHex r g b).length = 7 ∧
    (∃ cs : List Char, (rgbToHex r g b).data = '#' :: cs ∧ cs.length = 6 ∧
      ∀ c ∈ cs, isUpperHexDigit c = true) ∧
    parseHex (rgbToHex r g b) = some (r, g, b) := by
  obtain ⟨r₁, r₂, er, hr₁, hr₂, pr⟩ := fmt02X_shape hr
  obtain ⟨g₁, g₂, eg, hg₁, hg₂, pg⟩ := fmt02X_shape hg
  obtain ⟨b₁, b₂, eb, hb₁, hb₂, pb⟩ := fmt02X_shape hb
  have hdata := rgbToHex_data er eg eb
  refine ⟨?_, ⟨[r₁, r₂, g₁, g₂, b₁, b₂], hdata, rfl, ?_⟩, ?_⟩
  · rw [String.length, hdata]; rfl
  · intro c hc
    simp only [List.mem_cons, List.mem_singleton, List.not_mem_nil, or_false] at hc
    rcases hc with rfl | rfl | rfl | rfl | rfl | rfl <;> assumption
  · simp only [parseHex, hdata, pr, pg, pb, if_true, Option.bind_eq_bind, Option.some_bind,
      Option.pure_def]

theorem rgbToHex_roundtrip_witness :
    ((18 : Nat) ≤ 255 ∧ (52 : Nat) ≤ 255 ∧ (86 : Nat) ≤ 255) ∧
    (rgbToHex 18 52 86).length = 7 ∧
    (∃ cs : List Char, (rgbToHex 18 52 86).data = '#' :: cs ∧ cs.length = 6 ∧
      ∀ c ∈ cs, isUpperHexDigit c = true) ∧
    parseHex (rgbToHex 18 52 86) = some (18, 52, 86) :=
  ⟨by decide, rgbToHex_roundtrip 18 52 86 (by decide) (by decide) (by decide)⟩

/-- Claim C3: for channel values in `[0,255]`, `rgbToHSL` returns a hue in
`[0,360)`, a saturation in `[0,100]` and a lightness in `[0,100]`, and
`rgbToHSV` returns a hue in `[0,360)`, a saturation in `[0,100]` and a value in
`[0,100]`. -/
theorem hsl_hsv_ranges (r g b : Nat) (hr : r ≤ 255) (hg : g ≤ 255) (hb : b ≤ 255) :
    ((0 ≤ (rgbToHSL r g b).1 ∧ (rgbToHSL r g b).1 < 360) ∧
      (0 ≤ (rgbToHSL r g b).2.1 ∧ (rgbToHSL r g b).2.1 ≤ 100) ∧
      (0 ≤ (rgbToHSL r g b).2.2 ∧ (rgbToHSL r g b).2.2 ≤ 100)) ∧
    ((0 ≤ (rgbToHSV r g b).1 ∧ (rgbToHSV r g b).1 < 360) ∧
      (0 ≤ (rgbToHSV r g b).2.1 ∧ (rgbToHSV r g b).2.1 ≤ 100) ∧
      (0 ≤ (rgbToHSV r g b).2.2 ∧ (rgbToHSV r g b).2.2 ≤ 100)) :=
  ⟨rgbToHSL_range r g b hr hg hb, rgbToHSV_range r g b hr hg hb⟩

theorem hsl_hsv_ranges_witness :
    ((18 : Nat) ≤ 255 ∧ (52 : Nat) ≤ 255 ∧ (86 : Nat) ≤ 255) ∧
    ((0 ≤ (rgbToHSL 18 52 86).1 ∧ (rgbToHSL 18 52 86).1 < 360) ∧
      (0 ≤ (rgbToHSL 18 52 86).2.1 ∧ (rgbToHSL 18 52 86).2.1 ≤ 100) ∧
      (0 ≤ (rgbToHSL 18 52 86).2.2 ∧ (rgbToHSL 18 52 86).2.2 ≤ 100)) ∧
    ((0 ≤ (rgbToHSV 18 52 86).1 ∧ (rgbToHSV 18 52 86).1 < 360) ∧
      (0 ≤ (rgbToHSV 18 52 86).2.1 ∧ (rgbToHSV 18 52 86).2.1 ≤ 100) ∧
      (0 ≤ (rgbToHSV 18 52 86).2.2 ∧ (rgbToHSV 18 52 86).2.2 ≤ 100)) :=
  ⟨by decide, hsl_hsv_ranges 18 52 86 (by decide) (by decide) (by decide)⟩

/-- Claim C4: `rgbToCMYK 0 0 0 = (0, 0, 0, 100)`; for every other input in
`[0,255]³`, with `M` the largest channel, `k = 100*(255-M)/255`,
`c = 100*(M-r)/M`, `m = 100*(M-g)/M` and `y = 100*(M-b)/M`; all four results
lie in `[0,100]`; and `rgbToCMYK 255 0 0 = (0, 100, 100, 0)`. -/
theorem rgbToCMYK_spec (r g b : Nat) (hr : r ≤ 255) (hg : g ≤ 255) (hb : b ≤ 255) :
    rgbToCMYK 0 0 0 = (0, 0, 0, 100) ∧
    (¬(r = 0 ∧ g = 0 ∧ b = 0) →
      rgbToCMYK r g b =
        (100 * ((maxChan r g b : ℚ) - r) / maxChan r g b,
         100 * ((maxChan r g b : ℚ) - g) / maxChan r g b,
         100 * ((maxChan r g b : ℚ) - b) / maxChan r g b,
         100 * (255 - (maxChan r g b : ℚ)) / 255)) ∧
    ((0 ≤ (rgbToCMYK r g b).1 ∧ (rgbToCMYK r g b).1 ≤ 100) ∧
      (0 ≤ (rgbToCMYK r g b).2.1 ∧ (rgbToCMYK r g b).2.1 ≤ 100) ∧
      (0 ≤ (rgbToCMYK r g b).2.2.1 ∧ (rgbToCMYK r g b).2.2.1 ≤ 100) ∧
      (0 ≤ (rgbToCMYK r g b).2.2.2 ∧ (rgbToCMYK r g b).2.2.2 ≤ 100)) ∧
    rgbToCMYK 255 0 0 = (0, 100, 100, 0) := by
  refine ⟨by simp [rgbToCMYK], rgbToCMYK_formula r g b, rgbToCMYK_range r g b hr hg hb, ?_⟩
  rw [rgbToCMYK_formula 255 0 0 (by decide)]
  norm_num [maxChan]

theorem rgbToCMYK_spec_witness :
    ((18 : Nat) ≤ 255 ∧ (52 : Nat) ≤ 255 ∧ (86 : Nat) ≤ 255) ∧
    rgbToCMYK 0 0 0 = (0, 0, 0, 100) ∧
    (¬((18 : Nat) = 0 ∧ (52 : Nat) = 0 ∧ (86 : Nat) = 0) →
      rgbToCMYK 18 52 86 =
        (100 * ((maxChan 18 52 86 : ℚ) - (18 : Nat)) / maxChan 18 52 86,
         100 * ((maxChan 18 52 86 : ℚ) - (52 : Nat)) / maxChan 18 52 86,
         100 * ((maxChan 18 52 86 : ℚ) - (86 : Nat)) / maxChan 18 52 86,
         100 * (255 - (maxChan 18 52 86 : ℚ)) / 255)) ∧
    ((0 ≤ (rgbToCMYK 18 52 86).1 ∧ (rgbToCMYK 18 52 86).1 ≤ 100) ∧
      (0 ≤ (rgbToCMYK 18 52 86).2.1 ∧ (rgbToCMYK 18 52 86).2.1 ≤ 100) ∧
      (0 ≤ (rgbToCMYK 18 52 86).2.2.1 ∧ (rgbToCMYK 18 52 86).2.2.1 ≤ 100) ∧
      (0 ≤ (rgbToCMYK 18 52 86).2.2.2 ∧ (rgbToCMYK 18 52 86).2.2.2 ≤ 100)) ∧
    rgbToCMYK 255 0 0 = (0, 100, 100, 0) :=
  ⟨by decide, rgbToCMYK_spec 18 52 86 (by decide) (by decide) (by decide)⟩

/-- Claim C5: for channel values in `[0,255]`, the hue of `rgbToHSV` is the hue
of `rgbToHSL`; for `(255, 0, 0)` both hues are `0` and `rgbToHSV` returns
`(0, 100, 100)`; for black `rgbToHSV` returns `(0, 0, 0)`. -/
theorem hsv_hue_matches_hsl (r g b : Nat) (_hr : r ≤ 255) (_hg : g ≤ 255) (_hb : b ≤ 255) :
    (rgbToHSV r g b).1 = (rgbToHSL r g b).1 ∧
    (rgbToHSL 255 0 0).1 = 0 ∧ rgbToHSV 255 0 0 = (0, 100, 100) ∧
    rgbToHSV 0 0 0 = (0, 0, 0) := by
  have e : rgbToHSV 255 0 0 = (0, 100, 100) := by
    simp only [rgbToHSV, norm255_full, norm255_zero]
    norm_num
  refine ⟨hsv_hue_eq_hsl_hue r g b, ?_, e, ?_⟩
  · rw [← hsv_hue_eq_hsl_hue, e]
  · rw [rgbToHSV_gray, norm255_zero]; norm_num

theorem hsv_hue_matches_hsl_witness :
    ((18 : Nat) ≤ 255 ∧ (52 : Nat) ≤ 255 ∧ (86 : Nat) ≤ 255) ∧
    (rgbToHSV 18 52 86).1 = (rgbToHSL 18 52 86).1 ∧
    (rgbToHSL 255 0 0).1 = 0 ∧ rgbToHSV 255 0 0 = (0, 100, 100) ∧
    rgbToHSV 0 0 0 = (0, 0, 0) :=
  ⟨by decide, hsv_hue_matches_hsl 18 52 86 (by decide) (by decide) (by decide)⟩

/-- Claim C6: for an achromatic input `r = g = b` in `[0,255]`, the hue and the
saturation of `rgbToHSL` are `0` and the hue and the saturation of `rgbToHSV`
are `0`. -/
theorem achromatic_hue_saturation_zero (r g b : Nat) (_hr : r ≤ 255) (hrg : r = g)
    (hgb : g = b) :
    ((rgbToHSL r g b).1 = 0 ∧ (rgbToHSL r g b).2.1 = 0) ∧
    ((rgbToHSV r g b).1 = 0 ∧ (rgbToHSV r g b).2.1 = 0) := by
  subst hrg
  subst hgb
  rw [rgbToHSL_gray, rgbToHSV_gray]
  exact ⟨⟨rfl, rfl⟩, rfl, rfl⟩

theorem achromatic_hue_saturation_zero_witness :
    ((128 : Nat) ≤ 255 ∧ (128 : Nat) = 128 ∧ (128 : Nat) = 128) ∧
    ((rgbToHSL 128 128 128).1 = 0 ∧ (rgbToHSL 128 128 128).2.1 = 0) ∧
    ((rgbToHSV 128 128 128).1 = 0 ∧ (rgbToHSV 128 128 128).2.1 = 0) :=
  ⟨by decide, achromatic_hue_saturation_zero 128 128 128 (by decide) rfl rfl⟩

/-- Claim C7: for channel values in `[0,255]`, no division of `rgbToHSL`,
`rgbToCMYK` or `rgbToHSV` has a zero divisor: the versions with checked
division return the results of the plain versions; `invK` is non-zero for
every non-black input; and when `delta` is non-zero so are `max + min`,
`2 - max - min` and `max`. -/
theorem divisions_never_by_zero (r g b : Nat) (hr : r ≤ 255) (hg : g ≤ 255) (hb : b ≤ 255) :
    rgbToHSLChecked r g b = some (rgbToHSL r g b) ∧
    rgbToCMYKChecked r g b = some (rgbToCMYK r g b) ∧
    rgbToHSVChecked r g b = some (rgbToHSV r g b) ∧
    (¬(r = 0 ∧ g = 0 ∧ b = 0) → cmykInvK r g b ≠ 0) ∧
    (normMax r g b - normMin r g b ≠ 0 →
      normMax r g b + normMin r g b ≠ 0 ∧ 2 - normMax r g b - normMin r g b ≠ 0 ∧
        normMax r g b ≠ 0) := by
  refine ⟨rgbToHSLChecked_eq r g b hr hg hb, rgbToCMYKChecked_eq r g b,
    rgbToHSVChecked_eq r g b, cmykInvK_ne_zero r g b, ?_⟩
  intro hd
  have hM1 : normMax r g b ≤ 1 :=
    max_le (norm255_le_one hr) (max_le (norm255_le_one hg) (norm255_le_one hb))
  have hm0 : 0 ≤ normMin r g b :=
    le_min (norm255_nonneg r) (le_min (norm255_nonneg g) (norm255_nonneg b))
  have hle : normMin r g b ≤ normMax r g b :=
    le_trans (min_le_left _ _) (le_max_left _ _)
  have hpos : 0 < normMax r g b - normMin r g b := lt_of_le_of_ne (by linarith) (Ne.symm hd)
  exact ⟨ne_of_gt (by linarith), ne_of_gt (by linarith), ne_of_gt (by linarith)⟩

theorem divisions_never_by_zero_witness :
    ((18 : Nat) ≤ 255 ∧ (52 : Nat) ≤ 255 ∧ (86 : Nat) ≤ 255) ∧
    rgbToHSLChecked 18 52 86 = some (rgbToHSL 18 52 86) ∧
    rgbToCMYKChecked 18 52 86 = some (rgbToCMYK 18 52 86) ∧
    rgbToHSVChecked 18 52 86 = some (rgbToHSV 18 52 86) ∧
    (¬((18 : Nat) = 0 ∧ (52 : Nat) = 0 ∧ (86 : Nat) = 0) → cmykInvK 18 52 86 ≠ 0) ∧
    (normMax 18 52 86 - normMin 18 52 86 ≠ 0 →
      normMax 18 52 86 + normMin 18 52 86 ≠ 0 ∧ 2 - normMax 18 52 86 - normMin 18 52 86 ≠ 0 ∧
        normMax 18 52 86 ≠ 0) :=
  ⟨by decide, divisions_never_by_zero 18 52 86 (by decide) (by decide) (by decide)⟩

/-- Claim C8: for channel values in `[0,255]` with `max ≠ min`, the saturation
of `rgbToHSL` is `100*delta/(max+min)` when `l = (max+min)/2 < 1/2` and
`100*delta/(2-max-min)` otherwise, on the normalized channels, and it equals
`100*delta/(1 - |2l - 1|)`. -/
theorem hsl_saturation_formula (r g b : Nat) (_hr : r ≤ 255) (_hg : g ≤ 255) (_hb : b ≤ 255)
    (h : maxChan r g b ≠ minChan r g b) :
    (rgbToHSL r g b).2.1 =
      (if (normMax r g b + normMin r g b) / 2 < 1 / 2 then
        100 * (normMax r g b - normMin r g b) / (normMax r g b + normMin r g b)
      else
        100 * (normMax r g b - normMin r g b) / (2 - normMax r g b - normMin r g b)) ∧
    (rgbToHSL r g b).2.1 =
      100 * (normMax r g b - normMin r g b) /
        (1 - |2 * ((normMax r g b + normMin r g b) / 2) - 1|) :=
  rgbToHSL_saturation r g b h

theorem hsl_saturation_formula_witness :
    (((18 : Nat) ≤ 255 ∧ (52 : Nat) ≤ 255 ∧ (86 : Nat) ≤ 255) ∧
      maxChan 18 52 86 ≠ minChan 18 52 86) ∧
    (rgbToHSL 18 52 86).2.1 =
      (if (normMax 18 52 86 + normMin 18 52 86) / 2 < 1 / 2 then
        100 * (normMax 18 52 86 - normMin 18 52 86) / (normMax 18 52 86 + normMin 18 52 86)
      else
        100 * (normMax 18 52 86 - normMin 18 52 86) /
          (2 - normMax 18 52 86 - normMin 18 52 86)) ∧
    (rgbToHSL 18 52 86).2.1 =
      100 * (normMax 18 52 86 - normMin 18 52 86) /
        (1 - |2 * ((normMax 18 52 86 + normMin 18 52 86) / 2) - 1|) :=
  ⟨⟨by decide, by decide⟩,
    hsl_saturation_formula 18 52 86 (by decide) (by decide) (by decide) (by decide)⟩

/-- Claim C9: for channel values in `[0,255]`, the field `RGB` of
`getColorInfo` is the three channel values in decimal joined by `", "`, the
field `RGBA` is that string followed by `", 1"`, and the field `HEX` is
`rgbToHex r g b`; for `(18, 52, 86)` the three are `"18, 52, 86"`,
`"18, 52, 86, 1"` and `"#123456"`. -/
theorem getColorInfo_strings (fmtF : ℚ → String) (r g b : Nat)
    (hr : r ≤ 255) (hg : g ≤ 255) (hb : b ≤ 255) :
    (getColorInfo fmtF r g b).RGB = String.intercalate ", " [fmtD r, fmtD g, fmtD b] ∧
    (parseDec (fmtD r) = some r ∧ parseDec (fmtD g) = some g ∧ parseDec (fmtD b) = some b) ∧
    (getColorInfo fmtF r g b).RGBA = (getColorInfo fmtF r g b).RGB ++ ", 1" ∧
    (getColorInfo fmtF r g b).HEX = rgbToHex r g b ∧
    (getColorInfo fmtF 18 52 86).RGB = "18, 52, 86" ∧
    (getColorInfo fmtF 18 52 86).RGBA = "18, 52, 86, 1" ∧
    (getColorInfo fmtF 18 52 86).HEX = "#123456" := by
  refine ⟨rfl, ⟨fmtD_byte r (by omega), fmtD_byte g (by omega), fmtD_byte b (by omega)⟩,
    rfl, rfl, ?_, ?_, ?_⟩
  · show fmtD 18 ++ ", " ++ fmtD 52 ++ ", " ++ fmtD 86 = "18, 52, 86"
    decide
  · show fmtD 18 ++ ", " ++ fmtD 52 ++ ", " ++ fmtD 86 ++ ", 1" = "18, 52, 86, 1"
    decide
  · show rgbToHex 18 52 86 = "#123456"
    decide

theorem getColorInfo_strings_witness :
    ((18 : Nat) ≤ 255 ∧ (52 : Nat) ≤ 255 ∧ (86 : Nat) ≤ 255) ∧
    (getColorInfo (fun _ => "") 18 52 86).RGB =
      String.intercalate ", " [fmtD 18, fmtD 52, fmtD 86] ∧
    (parseDec (fmtD 18) = some 18 ∧ parseDec (fmtD 52) = some 52 ∧
      parseDec (fmtD 86) = some 86) ∧
    (getColorInfo (fun _ => "") 18 52 86).RGBA =
      (getColorInfo (fun _ => "") 18 52 86).RGB ++ ", 1" ∧
    (getColorInfo (fun _ => "") 18 52 86).HEX = rgbToHex 18 52 86 ∧
    (getColorInfo (fun _ => "") 18 52 86).RGB = "18, 52, 86" ∧
    (getColorInfo (fun _ => "") 18 52 86).RGBA = "18, 52, 86, 1" ∧
    (getColorInfo (fun _ => "") 18 52 86).HEX = "#123456" :=
  ⟨by decide,
    getColorInfo_strings (fun _ => "") 18 52 86 (by decide) (by decide) (by decide)⟩

/-- Claim C10: for channel values in `[0,255]`, with `(c, m, y, k)` the result
of `rgbToCMYK`, `255*(1-c/100)*(1-k/100) = r`, `255*(1-m/100)*(1-k/100) = g`
and `255*(1-y/100)*(1-k/100) = b`, black included. -/
theorem rgbToCMYK_invertible (r g b : Nat) (_hr : r ≤ 255) (_hg : g ≤ 255) (_hb : b ≤ 255) :
    255 * (1 - (rgbToCMYK r g b).1 / 100) * (1 - (rgbToCMYK r g b).2.2.2 / 100) = r ∧
    255 * (1 - (rgbToCMYK r g b).2.1 / 100) * (1 - (rgbToCMYK r g b).2.2.2 / 100) = g ∧
    255 * (1 - (rgbToCMYK r g b).2.2.1 / 100) * (1 - (rgbToCMYK r g b).2.2.2 / 100) = b :=
  rgbToCMYK_inverse r g b

theorem rgbToCMYK_invertible_witness :
    ((18 : Nat) ≤ 255 ∧ (52 : Nat) ≤ 255 ∧ (86 : Nat) ≤ 255) ∧
    255 * (1 - (rgbToCMYK 18 52 86).1 / 100) * (1 - (rgbToCMYK 18 52 86).2.2.2 / 100) =
      (18 : Nat) ∧
    255 * (1 - (rgbToCMYK 18 52 86).2.1 / 100) * (1 - (rgbToCMYK 18 52 86).2.2.2 / 100) =
      (52 : Nat) ∧
    255 * (1 - (rgbToCMYK 18 52 86).2.2.1 / 100) * (1 - (rgbToCMYK 18 52 86).2.2.2 / 100) =
      (86 : Nat) :=
  ⟨by decide, rgbToCMYK_invertible 18 52 86 (by decide) (by decide) (by decide)⟩

end Colorex
